import Mathlib

/-!
Verification of the ECR build-and-push Terraform provider
(`dominikhei/terraform-ecr-build-push-image`).

The development shallowly embeds the provider's lifecycle reconciler
(`internals/resource_push_image.go`) together with its CLI helper layer
(`internals/utils.go`).  External processes (the AWS CLI, the Docker
daemon, the local file system) are modelled by an explicit environment
record that fixes the outcome of every external call, and the ECR
registry is modelled as an association list of repositories.  Every
external call an operation performs is recorded in an effect trace so
that ordering and frame properties can be stated.

Machine integers are modelled as `Nat` with explicit reduction
`% 2^32`; SHA-256 (the Go `crypto/sha256` package used by
`getDockerfileHash`) is implemented in full.
-/

namespace EcrPush

/-! ## Bytes and 32-bit words -/

/-- Reduce a natural number to a 32-bit word, as Go's `uint32` arithmetic does. -/
def w32 (n : Nat) : Nat := n % 4294967296

/-- 32-bit right rotation (operands are assumed `< 2^32`). -/
def rotr32 (x n : Nat) : Nat := w32 ((x >>> n) ||| (x <<< (32 - n)))

/-- 32-bit bitwise complement. -/
def not32 (x : Nat) : Nat := x ^^^ 4294967295

/-! ## SHA-256 (Go `crypto/sha256`) -/

def shaCh (x y z : Nat) : Nat := (x &&& y) ^^^ (not32 x &&& z)

def shaMaj (x y z : Nat) : Nat := (x &&& y) ^^^ (x &&& z) ^^^ (y &&& z)

def bigSigma0 (x : Nat) : Nat := rotr32 x 2 ^^^ rotr32 x 13 ^^^ rotr32 x 22

def bigSigma1 (x : Nat) : Nat := rotr32 x 6 ^^^ rotr32 x 11 ^^^ rotr32 x 25

def smallSigma0 (x : Nat) : Nat := rotr32 x 7 ^^^ rotr32 x 18 ^^^ (x >>> 3)

def smallSigma1 (x : Nat) : Nat := rotr32 x 17 ^^^ rotr32 x 19 ^^^ (x >>> 10)

/-- The 64 SHA-256 round constants (FIPS 180-4), as decimal values. -/
def shaK : List Nat :=
  [1116352408, 1899447441, 3049323471, 3921009573, 961987163, 1508970993,
   2453635748, 2870763221, 3624381080, 310598401, 607225278, 1426881987,
   1925078388, 2162078206, 2614888103, 3248222580, 3835390401, 4022224774,
   264347078, 604807628, 770255983, 1249150122, 1555081692, 1996064986,
   2554220882, 2821834349, 2952996808, 3210313671, 3336571891, 3584528711,
   113926993, 338241895, 666307205, 773529912, 1294757372, 1396182291,
   1695183700, 1986661051, 2177026350, 2456956037, 2730485921, 2820302411,
   3259730800, 3345764771, 3516065817, 3600352804, 4094571909, 275423344,
   430227734, 506948616, 659060556, 883997877, 958139571, 1322822218,
   1537002063, 1747873779, 1955562222, 2024104815, 2227730452, 2361852424,
   2428436474, 2756734187, 3204031479, 3329325298]

/-- The state of the compression function: eight 32-bit words. -/
structure Hash8 where
  a : Nat
  b : Nat
  c : Nat
  d : Nat
  e : Nat
  f : Nat
  g : Nat
  h : Nat

/-- The SHA-256 initial hash value (FIPS 180-4), as decimal values. -/
def shaInit : Hash8 :=
  ⟨1779033703, 3144134277, 1013904242, 2773480762,
   1359893119, 2600822924, 528734635, 1541459225⟩

/-- Big-endian encoding of a 64-bit length value as 8 bytes. -/
def toBE8 (n : Nat) : List Nat :=
  [(n >>> 56) % 256, (n >>> 48) % 256, (n >>> 40) % 256, (n >>> 32) % 256,
   (n >>> 24) % 256, (n >>> 16) % 256, (n >>> 8) % 256, n % 256]

/-- Big-endian encoding of a 32-bit word as 4 bytes. -/
def toBE4 (n : Nat) : List Nat :=
  [(n >>> 24) % 256, (n >>> 16) % 256, (n >>> 8) % 256, n % 256]

/-- SHA-256 padding: append `0x80`, zeros to 56 mod 64, then the bit length. -/
def padMsg (msg : List Nat) : List Nat :=
  let L := msg.length
  let k := (119 - (L % 64)) % 64
  msg ++ 128 :: List.replicate k 0 ++ toBE8 (L * 8)

/-- Group bytes into big-endian 32-bit words. -/
def bytesToWords : List Nat → List Nat
  | b1 :: b2 :: b3 :: b4 :: rest =>
      (((b1 * 256 + b2) * 256 + b3) * 256 + b4) :: bytesToWords rest
  | _ => []

/-- Split a word list into blocks of 16 words (a padded message always
has a multiple of 16 words; a ragged tail is dropped). -/
def chunk16 : List Nat → List (List Nat)
  | w1 :: w2 :: w3 :: w4 :: w5 :: w6 :: w7 :: w8 ::
    w9 :: w10 :: w11 :: w12 :: w13 :: w14 :: w15 :: w16 :: rest =>
      [w1, w2, w3, w4, w5, w6, w7, w8, w9, w10, w11, w12, w13, w14, w15, w16] ::
        chunk16 rest
  | _ => []

/-- Message-schedule extension.  `acc` holds the words produced so far in
reverse order; `fuel` more words are appended. -/
def schedExt (acc : List Nat) : Nat → List Nat
  | 0 => acc.reverse
  | fuel + 1 =>
      let g (k : Nat) : Nat := acc.getD k 0
      schedExt
        ((w32 (smallSigma1 (g 1) + g 6 + smallSigma0 (g 14) + g 15)) :: acc) fuel

/-- One SHA-256 compression round. -/
def shaRound (st : Hash8) (k w : Nat) : Hash8 :=
  let t1 := w32 (st.h + bigSigma1 st.e + shaCh st.e st.f st.g + k + w)
  let t2 := w32 (bigSigma0 st.a + shaMaj st.a st.b st.c)
  ⟨w32 (t1 + t2), st.a, st.b, st.c, w32 (st.d + t1), st.e, st.f, st.g⟩

/-- Compress one 16-word block into the running hash state. -/
def compressBlock (st : Hash8) (block : List Nat) : Hash8 :=
  let ws := schedExt block.reverse 48
  let fin := (shaK.zip ws).foldl (fun s kw => shaRound s kw.1 kw.2) st
  ⟨w32 (st.a + fin.a), w32 (st.b + fin.b), w32 (st.c + fin.c), w32 (st.d + fin.d),
   w32 (st.e + fin.e), w32 (st.f + fin.f), w32 (st.g + fin.g), w32 (st.h + fin.h)⟩

/-- SHA-256 digest (32 bytes) of a byte sequence. -/
def sha256 (msg : List Nat) : List Nat :=
  let st := (chunk16 (bytesToWords (padMsg msg))).foldl compressBlock shaInit
  toBE4 st.a ++ toBE4 st.b ++ toBE4 st.c ++ toBE4 st.d ++
  toBE4 st.e ++ toBE4 st.f ++ toBE4 st.g ++ toBE4 st.h

/-- Lower-case hex digit, as Go's `encoding/hex`. -/
def hexDigit (n : Nat) : Char :=
  "0123456789abcdef".data.getD n 'x'

/-- Lower-case hex encoding of a byte sequence (Go `hex.EncodeToString`). -/
def hexEncode (bs : List Nat) : String :=
  String.mk (bs.foldr (fun b acc => hexDigit (b / 16) :: hexDigit (b % 16) :: acc) [])

/-- ASCII bytes of a string. -/
def strBytes (s : String) : List Nat := s.data.map Char.toNat

/-! ## Registry model

The ECR registry visible to the provider: an association list of
repositories, each with a tag-mutability flag and a list of
`(tag, manifest)` bindings. -/

structure Repo where
  immutable : Bool
  tags : List (String × String)

abbrev Registry := List (String × Repo)

def findRepo (reg : Registry) (name : String) : Option Repo :=
  (reg.find? (fun p => p.1 == name)).map (fun p => p.2)

def tagManifest (r : Repo) (t : String) : Option String :=
  (r.tags.find? (fun p => p.1 == t)).map (fun p => p.2)

def tagIsIn (r : Repo) (t : String) : Bool :=
  r.tags.any (fun p => p.1 == t)

def setTag (r : Repo) (t m : String) : Repo :=
  ⟨r.immutable, (t, m) :: r.tags.filter (fun p => p.1 != t)⟩

def removeTag (r : Repo) (t : String) : Repo :=
  ⟨r.immutable, r.tags.filter (fun p => p.1 != t)⟩

def updateRepo (reg : Registry) (name : String) (f : Repo → Repo) : Registry :=
  reg.map (fun p => if p.1 == name then (p.1, f p.2) else p)

/-! ## External-call environment and effect traces

Every external call made by the provider (AWS CLI invocation, Docker
daemon interaction, Dockerfile read) is recorded as an `Effect`.  The
`Env` record fixes the outcome of each kind of external call: `Except`
fields carry the success value or the error text of the underlying
process, and the `...Ok` booleans say whether the corresponding AWS CLI
transport call succeeds (when it does, the result is computed from the
modelled registry). -/

inductive Effect where
  | dockerPs
  | readDockerfile (path : String)
  | stsGetAccount
  | describeRepos
  | describeMutability (repo : String)
  | listImages (repo : String)
  | batchGet (repo tag : String)
  | putImage (repo tag manifest : String)
  | batchDelete (repo tag : String)
  | build (ref path : String)
  | tagImage (srcRef dstRef : String)
  | push (ref : String)

structure Env where
  awsRegion : String
  dockerPs : Except String String
  fs : String → Option (List Nat)
  accountId : Except String String
  buildOutcome : Except String Unit
  tagOutcome : Except String Unit
  pushStartOutcome : Except String Unit
  authRunOutcome : Except String Unit
  pushWaitOutcome : Except String Unit
  describeReposOk : Bool
  describeMutabilityOk : Bool
  listImagesOk : Bool
  batchGetOk : Bool
  putImageOk : Bool
  batchDeleteOk : Bool

/-- Whether `pat` occurs at the start of `s`. -/
def charsStartWith : List Char → List Char → Bool
  | _, [] => true
  | [], _ :: _ => false
  | a :: as, b :: bs => a == b && charsStartWith as bs

/-- Whether `pat` occurs anywhere in `s`. -/
def charsContain : List Char → List Char → Bool
  | [], pat => charsStartWith [] pat
  | a :: rest, pat => charsStartWith (a :: rest) pat || charsContain rest pat

/-- Substring test (Go `strings.Contains`), used for the
`strings.Contains(out, "Cannot connect")` check on `docker ps` output. -/
def containsSub (s pat : String) : Bool :=
  charsContain s.data pat.data

/-! ## Helper layer (`internals/utils.go`)

Each helper returns its Go result — the `(value, err)` pair collapsed
into an `Except` whose `error` branch is the non-nil-`err` case — plus
the list of external effects it performs; helpers that write to the
registry also return the new registry. -/

/-- `isDockerDRunning`: runs `docker ps`; an execution error is returned
as-is, otherwise the daemon counts as running unless the output contains
"Cannot connect". -/
def isDockerDRunningQ (env : Env) : Except String Bool × List Effect :=
  match env.dockerPs with
  | .error e => (.error e, [.dockerPs])
  | .ok out => (.ok (!containsSub out "Cannot connect"), [.dockerPs])

/-- `filepath.Join(dockerfilePath, "Dockerfile")` (path cleaning aside). -/
def dockerfileFullPath (p : String) : String := p ++ "/Dockerfile"

/-- `getDockerfileHash`: reads the file named "Dockerfile" in the build
context directory and returns the hex-encoded SHA-256 of its bytes. -/
def getDockerfileHashQ (env : Env) (dockerfilePath : String) :
    Except String String × List Effect :=
  match env.fs (dockerfileFullPath dockerfilePath) with
  | none => (.error "no such file or directory", [.readDockerfile dockerfilePath])
  | some content => (.ok (hexEncode (sha256 content)), [.readDockerfile dockerfilePath])

/-- `getAWSAccountID` via `aws sts get-caller-identity`. -/
def getAWSAccountIDQ (env : Env) : Except String String × List Effect :=
  (env.accountId, [.stsGetAccount])

/-- `repoExists`: lists all repository names; a found name yields
`(true, nil)`, a missing name yields a non-nil error ("repository does
not exist"), so the caller's error branch fires for a missing repo. -/
def repoExistsQ (env : Env) (reg : Registry) (repoName : String) :
    Except String Bool × List Effect :=
  if !env.describeReposOk then (.error "error listing repositories", [.describeRepos])
  else
    match findRepo reg repoName with
    | some _ => (.ok true, [.describeRepos])
    | none => (.error "repository does not exist", [.describeRepos])

/-- `imageTagExist` via `aws ecr list-images`; the CLI fails when the
repository itself is missing. -/
def imageTagExistQ (env : Env) (reg : Registry) (imageTag repoName : String) :
    Except String Bool × List Effect :=
  if !env.listImagesOk then (.error "error listing images", [.listImages repoName])
  else
    match findRepo reg repoName with
    | none => (.error "RepositoryNotFoundException", [.listImages repoName])
    | some r => (.ok (tagIsIn r imageTag), [.listImages repoName])

/-- `isMutable`: describes the repository and returns `false` exactly when
its mutability setting is IMMUTABLE. -/
def isMutableQ (env : Env) (reg : Registry) (repoName : String) :
    Except String Bool × List Effect :=
  if !env.describeMutabilityOk then
    (.error "error describing repository", [.describeMutability repoName])
  else
    match findRepo reg repoName with
    | none => (.error "RepositoryNotFoundException", [.describeMutability repoName])
    | some r => (.ok (!r.immutable), [.describeMutability repoName])

/-- `getImageManifest` via `aws ecr batch-get-image --output text`: for a
missing tag the CLI exits 0 with empty text output, so the Go function
returns `""` with nil error; a missing repository is a CLI error. -/
def getImageManifestQ (env : Env) (reg : Registry) (repoName imageTag : String) :
    Except String String × List Effect :=
  if !env.batchGetOk then (.error "error calling batch-get-image", [.batchGet repoName imageTag])
  else
    match findRepo reg repoName with
    | none => (.error "RepositoryNotFoundException", [.batchGet repoName imageTag])
    | some r =>
      match tagManifest r imageTag with
      | some m => (.ok m, [.batchGet repoName imageTag])
      | none => (.ok "", [.batchGet repoName imageTag])

/-- `updateImageTag` via `aws ecr put-image`: binds `newTag` to the given
manifest.  ECR rejects re-pointing an existing tag of an IMMUTABLE
repository at different content; an exact duplicate put is modelled as a
success. -/
def updateImageTagQ (env : Env) (reg : Registry) (manifest repoName newTag : String) :
    Except String Unit × Registry × List Effect :=
  if !env.putImageOk then
    (.error "error calling put-image", reg, [.putImage repoName newTag manifest])
  else
    match findRepo reg repoName with
    | none => (.error "RepositoryNotFoundException", reg, [.putImage repoName newTag manifest])
    | some r =>
      match tagManifest r newTag with
      | some m0 =>
        if r.immutable && m0 != manifest then
          (.error "ImageTagAlreadyExistsException", reg, [.putImage repoName newTag manifest])
        else
          (.ok (), updateRepo reg repoName (fun r0 => setTag r0 newTag manifest),
            [.putImage repoName newTag manifest])
      | none =>
        (.ok (), updateRepo reg repoName (fun r0 => setTag r0 newTag manifest),
          [.putImage repoName newTag manifest])

/-- `deleteImage` via `aws ecr batch-delete-image`: deleting a tag that is
already absent from an existing repository is a CLI success (failures are
reported in the payload, not the exit code), so this helper is idempotent
for missing tags. -/
def deleteImageQ (env : Env) (reg : Registry) (repoName imageTag : String) :
    Except String Unit × Registry × List Effect :=
  if !env.batchDeleteOk then
    (.error "error calling batch-delete-image", reg, [.batchDelete repoName imageTag])
  else
    match findRepo reg repoName with
    | none => (.error "RepositoryNotFoundException", reg, [.batchDelete repoName imageTag])
    | some _ =>
      (.ok (), updateRepo reg repoName (fun r0 => removeTag r0 imageTag),
        [.batchDelete repoName imageTag])

/-- `buildDockerImage` via `docker build`. -/
def buildDockerImageQ (env : Env) (imageNameAndTag dockerfilePath : String) :
    Except String Unit × List Effect :=
  (env.buildOutcome, [.build imageNameAndTag dockerfilePath])

/-- `tagDockerImage` via `docker tag`. -/
def tagDockerImageQ (env : Env) (imageNameAndTag ecrUriWithTag : String) :
    Except String Unit × List Effect :=
  (env.tagOutcome, [.tagImage imageNameAndTag ecrUriWithTag])

/-- `pushDockerImage` (CLI revision): starts `docker push`, runs the
`aws ecr get-login-password | docker login` pipeline, waits for the push,
then reports the first error among start/auth/wait in that order. -/
def pushDockerImageQ (env : Env) (ecrUriWithTag : String) :
    Except String Unit × List Effect :=
  let res : Except String Unit :=
    match env.pushStartOutcome with
    | .error e => .error e
    | .ok _ =>
      match env.authRunOutcome with
      | .error e => .error e
      | .ok _ => env.pushWaitOutcome
  (res, [.push ecrUriWithTag])

/-- The individual process operations the CLI `pushDockerImage` performs,
in the order it performs them: create the stdin pipe from the
authentication pipeline into `docker push`, start the push process, run
the `aws ecr get-login-password | docker login` pipeline, wait for the
push process to exit. -/
inductive PushStep where
  | stdinPipe
  | pushStart
  | authRun
  | pushWait

/-- `pushDockerImage` (CLI revision, `internals/utils.go` lines 81-108)
at the level of individual process operations.  The Go code wires the
authentication pipeline's stdout into `docker push`'s stdin, then calls
`pushImage.Start()`, `authenticateCommand.Run()` and `pushImage.Wait()`
unconditionally in that order, and only afterwards inspects the three
recorded errors, start error first, then auth error, then wait error.
The only early return is a failure to create the stdin pipe; no error —
in particular no authentication failure — prevents the already-started
push process from being waited to completion, and nothing in the code
terminates it. -/
def pushDockerImageSteps (errPipe errStart errRun errWait : Except String Unit) :
    Except String Unit × List PushStep :=
  match errPipe with
  | .error e => (.error e, [.stdinPipe])
  | .ok _ =>
    let res : Except String Unit :=
      match errStart with
      | .error e => .error e
      | .ok _ =>
        match errRun with
        | .error e => .error e
        | .ok _ => errWait
    (res, [.stdinPipe, .pushStart, .authRun, .pushWait])

/-! ## Resource data and operation state -/

/-- The persisted fields of the resource the reconciler writes:
the identity (`d.SetId`) and the computed `dockerfile_hash`
(`d.Set("dockerfile_hash", ...)`). -/
structure TfState where
  id : String
  dockerfileHash : String

structure OpState where
  reg : Registry
  tf : TfState
  tr : List Effect

def emitAll (s : OpState) (es : List Effect) : OpState :=
  { s with tr := s.tr ++ es }

/-- Desired-state fields seen by Create (`d.Get` of the config). -/
structure CreateInput where
  repoName : String
  imageName : String
  imageTag : String
  dockerfilePath : String

/-- Fields seen by Update: `d.GetChange("image_tag")` yields
`(oldTag, newTag)`; the stored and planned `dockerfile_hash` values give
`d.HasChange("dockerfile_hash")` (the planned value is what
`CustomizeDiff` recorded via `SetNew`). -/
structure UpdateInput where
  repoName : String
  imageName : String
  dockerfilePath : String
  oldTag : String
  newTag : String
  oldHash : String
  newHash : String

structure ReadInput where
  repoName : String
  imageTag : String

structure DeleteInput where
  repoName : String
  imageTag : String

/-! ## Lifecycle operations (`internals/resource_push_image.go`) -/

/-- `resourcePushImageCreate`. -/
def createM (env : Env) (inp : CreateInput) (s0 : OpState) : Except String Unit × OpState :=
  let imageNameAndTag := inp.imageName ++ ":" ++ inp.imageTag
  let (rDocker, tr1) := isDockerDRunningQ env
  let s1 := emitAll s0 tr1
  match rDocker with
  | .error e => (.error ("the docker daemon is not running: " ++ e), s1)
  | .ok dockerStatus =>
  if !dockerStatus then
    (.error "the Docker daemon is not running, please start it before running terraform apply", s1)
  else
  let (rHash, tr2) := getDockerfileHashQ env inp.dockerfilePath
  let s2 := emitAll s1 tr2
  match rHash with
  | .error e => (.error ("error reading Dockerfile: " ++ e), s2)
  | .ok dockerfileHash =>
  -- d.Set("dockerfile_hash", dockerfileHash) happens here, before the
  -- repository checks and before build/tag/push (lines 72-75)
  let s3 := { s2 with tf := { s2.tf with dockerfileHash := dockerfileHash } }
  let (rRepo, tr3) := repoExistsQ env s3.reg inp.repoName
  let s4 := emitAll s3 tr3
  match rRepo with
  | .error e => (.error ("error retrieving repository: " ++ e), s4)
  | .ok out =>
  if !out then (.error "the provided repository does not exist", s4)
  else
  let (rMut, tr4) := isMutableQ env s4.reg inp.repoName
  let s5 := emitAll s4 tr4
  match rMut with
  | .error e => (.error ("error regarding repository mutability: " ++ e), s5)
  | .ok repoMutability =>
  let (rTag, tr5) := imageTagExistQ env s5.reg inp.imageTag inp.repoName
  let s6 := emitAll s5 tr5
  match rTag with
  | .error e => (.error ("error regarding image tag: " ++ e), s6)
  | .ok tagAlreadyExists =>
  if tagAlreadyExists && !repoMutability then
    (.error "the repo is immutable and you are trying to push an image with a tag that already exists in it", s6)
  else
  let (rAcct, tr6) := getAWSAccountIDQ env
  let s7 := emitAll s6 tr6
  match rAcct with
  | .error e => (.error ("error retrieving AWS account Id: " ++ e), s7)
  | .ok awsAccountId =>
  let ecrUri := awsAccountId ++ ".dkr.ecr." ++ env.awsRegion ++ ".amazonaws.com"
  let ecrUriWithRepo := ecrUri ++ "/" ++ inp.repoName
  let ecrUriWithTag := ecrUriWithRepo ++ ":" ++ inp.imageTag
  let (rBuild, tr7) := buildDockerImageQ env imageNameAndTag inp.dockerfilePath
  let s8 := emitAll s7 tr7
  match rBuild with
  | .error e => (.error ("error building Docker image: " ++ e), s8)
  | .ok _ =>
  let (rTagI, tr8) := tagDockerImageQ env imageNameAndTag ecrUriWithTag
  let s9 := emitAll s8 tr8
  match rTagI with
  | .error e => (.error ("error tagging Docker image: " ++ e), s9)
  | .ok _ =>
  let (rPush, tr9) := pushDockerImageQ env ecrUriWithTag
  let s10 := emitAll s9 tr9
  match rPush with
  | .error e => (.error ("error pushing Docker image: " ++ e), s10)
  | .ok _ =>
  let (rMan, tr10) := getImageManifestQ env s10.reg inp.repoName inp.imageTag
  let s11 := emitAll s10 tr10
  match rMan with
  | .error e => (.error ("error retrieving image manifest: " ++ e), s11)
  | .ok imageManifest =>
  (.ok (), { s11 with tf := { s11.tf with id := imageManifest } })

/-- `resourcePushImageDelete`. -/
def deleteM (env : Env) (inp : DeleteInput) (s0 : OpState) : Except String Unit × OpState :=
  if inp.repoName == "" then (.error "ecr_repository_name is not set", s0)
  else if inp.imageTag == "" then (.error "image_tag is not set", s0)
  else
  let (rRepo, tr1) := repoExistsQ env s0.reg inp.repoName
  let s1 := emitAll s0 tr1
  match rRepo with
  | .error e => (.error ("error retrieving repository: " ++ e), s1)
  | .ok out =>
  if !out then (.error "the provided ECR repository does not exist", s1)
  else
  let (rTag, tr2) := imageTagExistQ env s1.reg inp.imageTag inp.repoName
  let s2 := emitAll s1 tr2
  match rTag with
  | .error e => (.error ("error retrieving image tag: " ++ e), s2)
  | .ok out2 =>
  if !out2 then (.error "the provided Image tag does not exist in the repository", s2)
  else
  let (rDel, regD, tr3) := deleteImageQ env s2.reg inp.repoName inp.imageTag
  let s3 := { emitAll s2 tr3 with reg := regD }
  match rDel with
  | .error e => (.error ("error deleting image: " ++ e), s3)
  | .ok _ => (.ok (), { s3 with tf := { s3.tf with id := "" } })

/-- The `if d.HasChange("image_tag")` block of `resourcePushImageUpdate`. -/
def updateTagBranch (env : Env) (inp : UpdateInput) (s0 : OpState) :
    Except String Unit × OpState :=
  let (rRepo, tr1) := repoExistsQ env s0.reg inp.repoName
  let s1 := emitAll s0 tr1
  match rRepo with
  | .error e => (.error ("error retrieving the ECR repository: " ++ e), s1)
  | .ok out =>
  if !out then (.error "the provided ECR repository does not exist", s1)
  else
  let (rOld, tr2) := imageTagExistQ env s1.reg inp.oldTag inp.repoName
  let s2 := emitAll s1 tr2
  match rOld with
  | .error e => (.error ("error regarding image tag: " ++ e), s2)
  | .ok oldExists =>
  if !oldExists then
    (.error "the previous image tag does not exist anymore in the repository", s2)
  else
  let (rMut, tr3) := isMutableQ env s2.reg inp.repoName
  let s3 := emitAll s2 tr3
  match rMut with
  | .error e => (.error ("error regarding repository mutability: " ++ e), s3)
  | .ok repoMutability =>
  let (rNew, tr4) := imageTagExistQ env s3.reg inp.newTag inp.repoName
  let s4 := emitAll s3 tr4
  match rNew with
  | .error e => (.error ("error with updating the image tag: " ++ e), s4)
  | .ok newExists =>
  if newExists && !repoMutability then
    (.error "the repositorie is immutable and you are trying to update an image with a tag that already exists in the repositorie", s4)
  else
  let (rMan, tr5) := getImageManifestQ env s4.reg inp.repoName inp.oldTag
  let s5 := emitAll s4 tr5
  match rMan with
  | .error e => (.error ("error retriving image digest: " ++ e), s5)
  | .ok imageManifest =>
  let (rPut, regP, tr6) := updateImageTagQ env s5.reg imageManifest inp.repoName inp.newTag
  let s6 := { emitAll s5 tr6 with reg := regP }
  match rPut with
  | .error e => (.error ("error updating Image tag: " ++ e), s6)
  | .ok _ =>
  let (rDel, regD, tr7) := deleteImageQ env s6.reg inp.repoName inp.oldTag
  let s7 := { emitAll s6 tr7 with reg := regD }
  match rDel with
  | .error e => (.error ("error deleting the old image tag: " ++ e), s7)
  | .ok _ => (.ok (), { s7 with tf := { s7.tf with id := imageManifest } })

/-- The `if d.HasChange("dockerfile_hash")` block of
`resourcePushImageUpdate`: rebuild and push under the current tag. -/
def updateHashBranch (env : Env) (inp : UpdateInput) (s0 : OpState) :
    Except String Unit × OpState :=
  let imageNameAndTag := inp.imageName ++ ":" ++ inp.newTag
  let (rAcct, tr1) := getAWSAccountIDQ env
  let s1 := emitAll s0 tr1
  match rAcct with
  | .error e => (.error ("error retrieving AWS account Id: " ++ e), s1)
  | .ok awsAccountId =>
  let ecrUri := awsAccountId ++ ".dkr.ecr." ++ env.awsRegion ++ ".amazonaws.com"
  let ecrUriWithRepo := ecrUri ++ "/" ++ inp.repoName
  let ecrUriWithTag := ecrUriWithRepo ++ ":" ++ inp.newTag
  let (rBuild, tr2) := buildDockerImageQ env imageNameAndTag inp.dockerfilePath
  let s2 := emitAll s1 tr2
  match rBuild with
  | .error e => (.error ("error building Docker image: " ++ e), s2)
  | .ok _ =>
  let (rTagI, tr3) := tagDockerImageQ env imageNameAndTag ecrUriWithTag
  let s3 := emitAll s2 tr3
  match rTagI with
  | .error e => (.error ("error tagging Docker image: " ++ e), s3)
  | .ok _ =>
  let (rPush, tr4) := pushDockerImageQ env ecrUriWithTag
  let s4 := emitAll s3 tr4
  match rPush with
  | .error e => (.error ("error pushing Docker image: " ++ e), s4)
  | .ok _ =>
  let (rMan, tr5) := getImageManifestQ env s4.reg inp.repoName inp.newTag
  let s5 := emitAll s4 tr5
  match rMan with
  | .error e => (.error ("error retrieving image manifest: " ++ e), s5)
  | .ok imageManifest =>
  (.ok (), { s5 with tf := { s5.tf with id := imageManifest } })

/-- `resourcePushImageUpdate`: the tag-change block, then the
content-drift block; each error inside a block aborts the whole call. -/
def updateM (env : Env) (inp : UpdateInput) (s0 : OpState) : Except String Unit × OpState :=
  let tagChanged := inp.oldTag != inp.newTag
  let hashChanged := inp.oldHash != inp.newHash
  if tagChanged then
    match updateTagBranch env inp s0 with
    | (.error e, s) => (.error e, s)
    | (.ok _, s) =>
      if hashChanged then updateHashBranch env inp s else (.ok (), s)
  else if hashChanged then updateHashBranch env inp s0 else (.ok (), s0)

/-- `resourcePushImageRead`. -/
def readM (env : Env) (inp : ReadInput) (s0 : OpState) : Except String Unit × OpState :=
  let (rRepo, tr1) := repoExistsQ env s0.reg inp.repoName
  let s1 := emitAll s0 tr1
  match rRepo with
  | .error e => (.error ("error retrieving the ECR repository: " ++ e), s1)
  | .ok out =>
  if !out then (.ok (), { s1 with tf := { s1.tf with id := "" } })
  else
  -- d.Set("ecr_repository_name", repoName): writes back the unchanged value
  let (rTag, tr2) := imageTagExistQ env s1.reg inp.imageTag inp.repoName
  let s2 := emitAll s1 tr2
  match rTag with
  | .error e => (.error ("error retrieving image tag: " ++ e), s2)
  | .ok tagExists =>
  if !tagExists then (.ok (), { s2 with tf := { s2.tf with id := "" } })
  else
  -- d.Set("image_tag", imageTag): writes back the unchanged value
  let (rMan, tr3) := getImageManifestQ env s2.reg inp.repoName inp.imageTag
  let s3 := emitAll s2 tr3
  match rMan with
  | .error e => (.error ("error retrieving image manifest: " ++ e), s3)
  | .ok imageManifest =>
  (.ok (), { s3 with tf := { s3.tf with id := imageManifest } })

/-- Result of `customizeDiffForDockerfileChanges`: whether a new value was
recorded for `dockerfile_hash` via `SetNew`, and whether the field was
flagged via `ResourceDiff.ForceNew` — the plugin-SDK marking that an
attribute change requires the resource to be destroyed and re-created. -/
structure DiffMark where
  newHashSet : Option String
  forceNewHash : Bool

/-- `customizeDiffForDockerfileChanges`. -/
def customizeDiffM (env : Env) (id oldHash dockerfilePath : String) :
    Except String DiffMark :=
  if id == "" then .ok ⟨none, false⟩
  else
    match (getDockerfileHashQ env dockerfilePath).1 with
    | .error e => .error ("error calculating Dockerfile hash: " ++ e)
    | .ok newHash =>
      if oldHash != newHash then .ok ⟨some newHash, true⟩
      else .ok ⟨none, false⟩

/-! ## The early revision (`resource_push_image.go`, package main)

In that revision the region is a resource attribute `aws_region`, and
`resourcePushImageDelete` reads it under the misspelled key
`"aws_-region"`.  `schema.ResourceData.Get` returns a nil interface
value for a key that is not declared in the schema, and the unchecked
type assertion `.(string)` on a nil interface panics. -/

/-- The attribute keys declared in the early revision's resource schema. -/
def schemaKeysV0 : List String :=
  ["ecr_repository_name", "dockerfile_path", "image_name", "image_tag", "aws_region"]

/-- `d.Get`: a declared key yields its (string) value, an undeclared key
yields the nil interface value, modelled as `none`. -/
def v0Get (cfg : String → String) (key : String) : Option String :=
  if schemaKeysV0.contains key then some (cfg key) else none

/-- The unchecked type assertion `.(string)`: on a nil interface value it
panics, which aborts the plugin call. -/
def assertStringV0 : Option String → Except String String
  | some s => .ok s
  | none => .error "panic: interface conversion: nil is not a string"

/-- `resourcePushImageDelete` of the early revision. -/
def deleteV0 (env : Env) (cfg : String → String) (s0 : OpState) :
    Except String Unit × OpState :=
  match assertStringV0 (v0Get cfg "ecr_repository_name") with
  | .error e => (.error e, s0)
  | .ok repoName =>
  match assertStringV0 (v0Get cfg "image_tag") with
  | .error e => (.error e, s0)
  | .ok imageTag =>
  match assertStringV0 (v0Get cfg "aws_-region") with
  | .error e => (.error e, s0)
  | .ok _ =>
  -- unreachable: "aws_-region" is not among `schemaKeysV0`
  let (rRepo, tr1) := repoExistsQ env s0.reg repoName
  let s1 := emitAll s0 tr1
  match rRepo with
  | .error e => (.error ("error retrieving repository: " ++ e), s1)
  | .ok out =>
  if !out then (.error "the provided ECR repository does not exist", s1)
  else
  let (rTag, tr2) := imageTagExistQ env s1.reg imageTag repoName
  let s2 := emitAll s1 tr2
  match rTag with
  | .error e => (.error ("error retrieving image tag: " ++ e), s2)
  | .ok out2 =>
  if !out2 then (.error "the provided Image tag does not exist in the repository", s2)
  else
  let (rDel, regD, tr3) := deleteImageQ env s2.reg repoName imageTag
  let s3 := { emitAll s2 tr3 with reg := regD }
  match rDel with
  | .error e => (.error ("error deleting image: " ++ e), s3)
  | .ok _ => (.ok (), { s3 with tf := { s3.tf with id := "" } })

/-! ## The SDK revision of `pushDockerImage`

The AWS-SDK/Moby revision of the helper layer performs the full
authentication handshake — fetch the ECR authorization token, base64
decode it, split it into username and password — strictly before
`ImagePush` is invoked, so an authentication failure returns before the
push is started. -/

/-- Go `base64.StdEncoding` alphabet value of a character. -/
def b64Val (c : Char) : Option Nat :=
  if 'A' ≤ c ∧ c ≤ 'Z' then some (c.toNat - 65)
  else if 'a' ≤ c ∧ c ≤ 'z' then some (c.toNat - 71)
  else if '0' ≤ c ∧ c ≤ '9' then some (c.toNat + 4)
  else if c = '+' then some 62
  else if c = '/' then some 63
  else none

/-- Standard base64 decoding (Go `base64.StdEncoding.DecodeString`):
four-character groups, `=` padding only at the end. -/
def b64DecodeCore : List Char → Except String (List Nat)
  | [] => .ok []
  | c1 :: c2 :: c3 :: c4 :: rest =>
    match b64Val c1, b64Val c2 with
    | some v1, some v2 =>
      let b1 := (v1 <<< 2) ||| (v2 >>> 4)
      if c3 == '=' then
        if c4 == '=' && rest.isEmpty then .ok [b1]
        else .error "illegal base64 data"
      else
        match b64Val c3 with
        | some v3 =>
          let b2 := ((v2 &&& 15) <<< 4) ||| (v3 >>> 2)
          if c4 == '=' then
            if rest.isEmpty then .ok [b1, b2]
            else .error "illegal base64 data"
          else
            match b64Val c4 with
            | some v4 =>
              let b3 := ((v3 &&& 3) <<< 6) ||| v4
              match b64DecodeCore rest with
              | .ok bs => .ok (b1 :: b2 :: b3 :: bs)
              | .error e => .error e
            | none => .error "illegal base64 data"
        | none => .error "illegal base64 data"
    | _, _ => .error "illegal base64 data"
  | _ => .error "illegal base64 data"

def base64Decode (s : String) : Except String (List Nat) :=
  b64DecodeCore s.data

/-- `strings.SplitN(s, ":", 2)` on decoded token bytes (`:` is byte 58):
at most two parts, the second containing everything after the first colon. -/
def splitN2Colon : List Nat → List (List Nat)
  | [] => [[]]
  | b :: rest =>
    if b == 58 then [[], rest]
    else
      match splitN2Colon rest with
      | [one] => [b :: one]
      | first :: others => (b :: first) :: others
      | [] => [[b]]

/-- Outcomes of the external calls made by the SDK revision of
`pushDockerImage`. -/
structure SdkPushEnv where
  loadConfigOutcome : Except String Unit
  authTokenOutcome : Except String (List String)
  dockerClientOutcome : Except String Unit
  pushCallOutcome : Except String Unit
  pushStreamOutcome : Except String Unit

inductive SdkEffect where
  | getAuthToken
  | imagePush (ref : String)

/-- The authentication phase of the SDK `pushDockerImage` (everything
before the Docker client is asked to push): returns the decoded
username/password on success. -/
def sdkAuthPhase (env : SdkPushEnv) : Except String (List Nat × List Nat) :=
  match env.loadConfigOutcome with
  | .error e => .error ("unable to load SDK config: " ++ e)
  | .ok _ =>
  match env.authTokenOutcome with
  | .error e => .error ("error getting ECR authorization token: " ++ e)
  | .ok authData =>
  if authData.isEmpty then .error "no authorization data returned"
  else
  match base64Decode (authData.headD "") with
  | .error e => .error ("error decoding authorization token: " ++ e)
  | .ok decoded =>
  match splitN2Colon decoded with
  | [u, p] => .ok (u, p)
  | _ => .error "invalid authorization token format"

/-- `pushDockerImage` of the SDK revision (`unnamed/part_001`,
lines 190-265). -/
def pushDockerImageSdk (env : SdkPushEnv) (ecrUriWithTag : String) :
    Except String Unit × List SdkEffect :=
  match env.loadConfigOutcome with
  | .error e => (.error ("unable to load SDK config: " ++ e), [])
  | .ok _ =>
  match env.authTokenOutcome with
  | .error e => (.error ("error getting ECR authorization token: " ++ e), [.getAuthToken])
  | .ok authData =>
  if authData.isEmpty then (.error "no authorization data returned", [.getAuthToken])
  else
  match base64Decode (authData.headD "") with
  | .error e => (.error ("error decoding authorization token: " ++ e), [.getAuthToken])
  | .ok decoded =>
  if (splitN2Colon decoded).length != 2 then
    (.error "invalid authorization token format", [.getAuthToken])
  else
  match env.dockerClientOutcome with
  | .error e => (.error ("failed to create Docker client: " ++ e), [.getAuthToken])
  | .ok _ =>
  -- json.Marshal of a registry.AuthConfig with string fields cannot fail
  match env.pushCallOutcome with
  | .error e => (.error ("error pushing image: " ++ e), [.getAuthToken, .imagePush ecrUriWithTag])
  | .ok _ =>
  match env.pushStreamOutcome with
  | .error e => (.error e, [.getAuthToken, .imagePush ecrUriWithTag])
  | .ok _ => (.ok (), [.getAuthToken, .imagePush ecrUriWithTag])

/-! ## Auxiliary predicates and concrete fixtures -/

def isErrB {α : Type} : Except String α → Bool
  | .error _ => true
  | .ok _ => false

/-! ## Concrete fixtures used by counterexamples and witnesses -/

/-- Environment in which every external call succeeds: the Docker daemon
is up, the build context contains a Dockerfile, and every AWS CLI call
goes through. -/
def mkEnv : Env where
  awsRegion := "eu-central-1"
  dockerPs := .ok "CONTAINER ID   IMAGE"
  fs := fun p => if p == "./Dockerfile" then some (strBytes "FROM alpine") else none
  accountId := .ok "123456789012"
  buildOutcome := .ok ()
  tagOutcome := .ok ()
  pushStartOutcome := .ok ()
  authRunOutcome := .ok ()
  pushWaitOutcome := .ok ()
  describeReposOk := true
  describeMutabilityOk := true
  listImagesOk := true
  batchGetOk := true
  putImageOk := true
  batchDeleteOk := true

def regMut : Registry := [("repo-1", ⟨false, [("v1", "M1")]⟩)]

def regImm : Registry := [("repo-1", ⟨true, [("v1", "M1"), ("v0", "M0")]⟩)]

def tf0 : TfState := ⟨"M1", "h1"⟩

/-- Environment in which everything succeeds except `docker build`. -/
def envBuildFail : Env := { mkEnv with buildOutcome := .error "boom" }

/-- An SDK push environment whose authorization-token request is denied. -/
def sdkEnvAuthFail : SdkPushEnv := ⟨.ok (), .error "AccessDenied", .ok (), .ok (), .ok ()⟩

/-- A representative build-instructions file, used for the finite
fingerprint-sensitivity demonstrations. -/
def dockerfileSample : List Nat := strBytes "FROM alpine"

/-! # Theorems -/

set_option maxRecDepth 4096 in
/-- Known-answer test: the embedded SHA-256 agrees with the standard test
vector for `"abc"`, pinning the model of Go's `crypto/sha256`. -/
theorem sha256_kat_abc :
    hexEncode (sha256 (strBytes "abc")) =
      "ba7816bf8f01cfea414140de5dae2223b00361a396177a9cb410ff61f20015ad" := by
  decide

/-! ## General lemmas about the registry model -/

theorem listAny_eq_findIsSome (l : List (String × String)) (t : String) :
    l.any (fun p => p.1 == t) = ((l.find? (fun p => p.1 == t)).map (fun p => p.2)).isSome := by
  induction l with
  | nil => rfl
  | cons hd tl ih =>
    by_cases h : hd.1 == t
    · simp [List.any_cons, List.find?_cons, h]
    · simp only [Bool.not_eq_true] at h
      simp [List.any_cons, List.find?_cons, h, ih]

theorem tagIsIn_eq_isSome (r : Repo) (t : String) :
    tagIsIn r t = (tagManifest r t).isSome := by
  simpa [tagIsIn, tagManifest] using listAny_eq_findIsSome r.tags t

theorem findRepo_updateRepo (reg : Registry) (n : String) (f : Repo → Repo) :
    findRepo (updateRepo reg n f) n = (findRepo reg n).map f := by
  induction reg with
  | nil => rfl
  | cons hd tl ih =>
    cases h : (hd.1 == n)
    · have e1 : updateRepo (hd :: tl) n f = hd :: updateRepo tl n f := by
        simp only [updateRepo, List.map_cons]
        rw [if_neg (by simp [h])]
      unfold findRepo
      rw [e1, List.find?_cons_of_neg _ (by simp [h]), List.find?_cons_of_neg _ (by simp [h])]
      exact ih
    · have e1 : updateRepo (hd :: tl) n f = (hd.1, f hd.2) :: updateRepo tl n f := by
        simp only [updateRepo, List.map_cons]
        rw [if_pos h]
      unfold findRepo
      rw [e1, List.find?_cons_of_pos _ (by simp [h]), List.find?_cons_of_pos _ (by simp [h])]
      rfl

theorem filterNe_any_eq_false (l : List (String × String)) (t : String) :
    (l.filter (fun p => p.1 != t)).any (fun p => p.1 == t) = false := by
  induction l with
  | nil => rfl
  | cons hd tl ih =>
    cases h : (hd.1 == t)
    · have hb : (hd.1 != t) = true := by simp [bne, h]
      simp [List.filter_cons, hb, List.any_cons, h, ih]
    · have hb : (hd.1 != t) = false := by simp [bne, h]
      simp [List.filter_cons, hb, ih]

theorem tagIsIn_removeTag (r : Repo) (t : String) :
    tagIsIn (removeTag r t) t = false := by
  simp only [tagIsIn, removeTag]
  exact filterNe_any_eq_false r.tags t

theorem tagManifest_removeTag_setTag (r : Repo) (t1 t2 m : String) (h : t2 ≠ t1) :
    tagManifest (removeTag (setTag r t2 m) t1) t2 = some m := by
  have hb : ((t2, m).1 != t1) = true := by simp [bne]; exact h
  unfold tagManifest removeTag setTag
  simp only [List.filter_cons, hb, if_true]
  rw [List.find?_cons_of_pos _ (by simp)]
  rfl

/-! ## C7 — no-op Update -/

/-- C7: if neither the image tag nor the Dockerfile fingerprint changed,
Update succeeds, performs no external call at all (empty effect trace, so
in particular zero calls to Build/Tag/Push/PutManifest/DeleteTag), and
leaves the registry and the resource state untouched. -/
theorem noop_update_no_calls (env : Env) (inp : UpdateInput) (reg : Registry) (tf : TfState)
    (htag : inp.oldTag = inp.newTag) (hhash : inp.oldHash = inp.newHash) :
    updateM env inp ⟨reg, tf, []⟩ = (.ok (), ⟨reg, tf, []⟩) := by
  simp [updateM, htag, hhash]

/-- Witness for C7 at a concrete no-change plan. -/
theorem noop_update_no_calls_witness :
    updateM mkEnv ⟨"repo-1", "app", ".", "v1", "v1", "h1", "h1"⟩ ⟨regMut, tf0, []⟩ =
      (.ok (), ⟨regMut, tf0, []⟩) :=
  noop_update_no_calls mkEnv ⟨"repo-1", "app", ".", "v1", "v1", "h1", "h1"⟩ regMut tf0 rfl rfl

/-! ## C10 — the early revision's Delete can never succeed -/

/-- C10: the early revision's Delete reads the region under the key
"aws_-region", which is not among the schema keys of that revision, so
the `d.Get` yields the nil interface value, the `.(string)` type
assertion fails, and for every configuration, environment and registry
the operation aborts before the repository-existence check or any
registry call (empty effect trace, state unchanged). -/
theorem v0_delete_always_fails (env : Env) (cfg : String → String)
    (reg : Registry) (tf : TfState) :
    schemaKeysV0.contains "aws_-region" = false ∧
    deleteV0 env cfg ⟨reg, tf, []⟩ =
      (.error "panic: interface conversion: nil is not a string", ⟨reg, tf, []⟩) := by
  exact ⟨by decide, rfl⟩

/-! ## C5 — what the plan-time diff marks on content drift -/

set_option maxRecDepth 8192 in
/-- C5 (divergence evaluation): with an existing resource (`id` = "M1"),
stored fingerprint "h1", and a Dockerfile now hashing differently, the
`CustomizeDiff` step records the new hash via `SetNew` AND flags the
`dockerfile_hash` attribute via `ResourceDiff.ForceNew` — the plugin-SDK
marking under which the engine destroys and re-creates the resource
instead of updating it in place. -/
theorem dockerfile_drift_marks_force_new :
    customizeDiffM mkEnv "M1" "h1" "." =
      .ok ⟨some (hexEncode (sha256 (strBytes "FROM alpine"))), true⟩ := by
  rfl

/-! ## C4 — Read when the repository or the tag has vanished -/

/-- C4 (divergence evaluation): when the repository no longer exists,
Read does NOT clear the id and does NOT return success — it fails with
the wrapped "repository does not exist" error, because `repoExists`
reports a missing repository through its error value, which makes Read's
own clear-and-succeed branch unreachable.  By contrast, when the
repository exists but the tag has vanished, Read clears the id and
succeeds, as the claim describes. -/
theorem read_missing_repo_errors :
    readM mkEnv ⟨"repo-1", "v1"⟩ ⟨[], tf0, []⟩ =
      (.error "error retrieving the ECR repository: repository does not exist",
        ⟨[], tf0, [.describeRepos]⟩) ∧
    readM mkEnv ⟨"repo-1", "v9"⟩ ⟨regMut, tf0, []⟩ =
      (.ok (), ⟨regMut, ⟨"", "h1"⟩, [.describeRepos, .listImages "repo-1"]⟩) := by
  exact ⟨rfl, rfl⟩

/-! ## C9 — the content fingerprint -/

/-! ## Characterization of the tag-change branch of Update -/

/-- On success, the tag-change branch of Update performed exactly the
reads followed by `batch-get` of the old tag's manifest, `put-image` of
that same manifest under the new tag, and `batch-delete` of the old tag,
in this order; the registry ends with the new tag bound to the old
manifest and the old tag deleted, and the id is set to that manifest. -/
theorem updateTagBranch_ok_spec (env : Env) (inp : UpdateInput) (s0 : OpState) (s' : OpState)
    (h : updateTagBranch env inp s0 = (.ok (), s')) :
    ∃ r m, findRepo s0.reg inp.repoName = some r ∧
      tagManifest r inp.oldTag = some m ∧
      s' = ⟨updateRepo (updateRepo s0.reg inp.repoName (fun r0 => setTag r0 inp.newTag m))
              inp.repoName (fun r0 => removeTag r0 inp.oldTag),
            ⟨m, s0.tf.dockerfileHash⟩,
            s0.tr ++ [.describeRepos, .listImages inp.repoName, .describeMutability inp.repoName,
              .listImages inp.repoName, .batchGet inp.repoName inp.oldTag,
              .putImage inp.repoName inp.newTag m, .batchDelete inp.repoName inp.oldTag]⟩ := by
  cases hdr : env.describeReposOk with
  | false => simp [updateTagBranch, repoExistsQ, hdr, emitAll] at h
  | true =>
  cases hfind : findRepo s0.reg inp.repoName with
  | none => simp [updateTagBranch, repoExistsQ, hdr, hfind, emitAll] at h
  | some r =>
  cases hli : env.listImagesOk with
  | false => simp [updateTagBranch, repoExistsQ, imageTagExistQ, hdr, hfind, hli, emitAll] at h
  | true =>
  cases hold : tagIsIn r inp.oldTag with
  | false =>
    simp [updateTagBranch, repoExistsQ, imageTagExistQ, hdr, hfind, hli, hold, emitAll] at h
  | true =>
  cases hdm : env.describeMutabilityOk with
  | false =>
    simp [updateTagBranch, repoExistsQ, imageTagExistQ, isMutableQ, hdr, hfind, hli, hold,
      hdm, emitAll] at h
  | true =>
  by_cases hg : tagIsIn r inp.newTag = true ∧ r.immutable = true
  case pos =>
    simp [updateTagBranch, repoExistsQ, imageTagExistQ, isMutableQ, hdr, hfind, hli, hold,
      hdm, hg.1, hg.2, emitAll] at h
  case neg =>
  cases hbg : env.batchGetOk with
  | false =>
    simp [updateTagBranch, repoExistsQ, imageTagExistQ, isMutableQ, getImageManifestQ, hdr,
      hfind, hli, hold, hdm, hg, hbg, emitAll] at h
  | true =>
  cases hman : tagManifest r inp.oldTag with
  | none =>
    rw [tagIsIn_eq_isSome, hman] at hold
    simp at hold
  | some m =>
  cases hpi : env.putImageOk with
  | false =>
    simp [updateTagBranch, repoExistsQ, imageTagExistQ, isMutableQ, getImageManifestQ,
      updateImageTagQ, hdr, hfind, hli, hold, hdm, hg, hbg, hman, hpi, emitAll] at h
  | true =>
  have hput : updateImageTagQ env s0.reg m inp.repoName inp.newTag =
      (.ok (), updateRepo s0.reg inp.repoName (fun r0 => setTag r0 inp.newTag m),
        [.putImage inp.repoName inp.newTag m]) := by
    cases hmn : tagManifest r inp.newTag with
    | none => simp [updateImageTagQ, hpi, hfind, hmn]
    | some m0 =>
      have hin : tagIsIn r inp.newTag = true := by
        rw [tagIsIn_eq_isSome, hmn]; rfl
      have himm : r.immutable = false := by
        cases hi : r.immutable
        · rfl
        · exact absurd ⟨hin, hi⟩ hg
      simp [updateImageTagQ, hpi, hfind, hmn, himm]
  cases hbd : env.batchDeleteOk with
  | false =>
    simp [updateTagBranch, repoExistsQ, imageTagExistQ, isMutableQ, getImageManifestQ,
      hput, deleteImageQ, findRepo_updateRepo, hdr, hfind, hli, hold, hdm, hg, hbg, hman,
      hbd, emitAll] at h
  | true =>
  have hdel : deleteImageQ env
      (updateRepo s0.reg inp.repoName (fun r0 => setTag r0 inp.newTag m))
      inp.repoName inp.oldTag =
      (.ok (), updateRepo (updateRepo s0.reg inp.repoName (fun r0 => setTag r0 inp.newTag m))
        inp.repoName (fun r0 => removeTag r0 inp.oldTag),
        [.batchDelete inp.repoName inp.oldTag]) := by
    simp [deleteImageQ, hbd, findRepo_updateRepo, hfind]
  refine ⟨r, m, rfl, hman, ?_⟩
  simp [updateTagBranch, repoExistsQ, imageTagExistQ, isMutableQ, getImageManifestQ,
    hput, hdel, hdr, hfind, hli, hold, hdm, hg, hbg, hman, emitAll] at h
  simp_all

/-! ## C2 — retag preserves content -/

/-- C2: a successful tag-change Update (no content drift) performs, in
order: the four read calls, `batch-get` of the old tag's manifest,
`put-image` of exactly that manifest under the new tag, and
`batch-delete` of the old tag — the full effect trace, so in particular
no build, local-tag or push call occurs.  Afterwards the new tag is bound
to the manifest observed for the old tag immediately before the update,
the old tag no longer exists, and the resource id is set to that
manifest. -/
theorem retag_preserves_content (env : Env) (inp : UpdateInput) (reg : Registry) (tf : TfState)
    (htag : inp.oldTag ≠ inp.newTag) (hhash : inp.oldHash = inp.newHash)
    (hok : (updateM env inp ⟨reg, tf, []⟩).1 = .ok ()) :
    ∃ r m, findRepo reg inp.repoName = some r ∧
      tagManifest r inp.oldTag = some m ∧
      (updateM env inp ⟨reg, tf, []⟩).2.tr =
        [.describeRepos, .listImages inp.repoName, .describeMutability inp.repoName,
          .listImages inp.repoName, .batchGet inp.repoName inp.oldTag,
          .putImage inp.repoName inp.newTag m, .batchDelete inp.repoName inp.oldTag] ∧
      (∃ r2, findRepo (updateM env inp ⟨reg, tf, []⟩).2.reg inp.repoName = some r2 ∧
        tagManifest r2 inp.newTag = some m ∧ tagIsIn r2 inp.oldTag = false) ∧
      (updateM env inp ⟨reg, tf, []⟩).2.tf = ⟨m, tf.dockerfileHash⟩ := by
  have htagb : (inp.oldTag != inp.newTag) = true := bne_iff_ne.mpr htag
  have hhashb : (inp.oldHash != inp.newHash) = false := by simp [hhash]
  rcases hub : updateTagBranch env inp ⟨reg, tf, []⟩ with ⟨res, s⟩
  cases res with
  | error e =>
    have hupd : (updateM env inp ⟨reg, tf, []⟩).1 = .error e := by
      simp [updateM, htagb, hhashb, hub]
    rw [hupd] at hok
    exact absurd hok (by simp)
  | ok u =>
  obtain ⟨r, m, hfind, hman, hs⟩ := updateTagBranch_ok_spec env inp _ s hub
  have hupd2 : updateM env inp ⟨reg, tf, []⟩ = (.ok (), s) := by
    simp [updateM, htagb, hhashb, hub]
  refine ⟨r, m, hfind, hman, ?_, ?_, ?_⟩
  · rw [hupd2, hs]
    simp
  · rw [hupd2, hs]
    refine ⟨removeTag (setTag r inp.newTag m) inp.oldTag, ?_, ?_, ?_⟩
    · have hgoal : findRepo (updateRepo (updateRepo reg inp.repoName
          (fun r0 => setTag r0 inp.newTag m)) inp.repoName (fun r0 => removeTag r0 inp.oldTag))
          inp.repoName = some (removeTag (setTag r inp.newTag m) inp.oldTag) := by
        rw [findRepo_updateRepo, findRepo_updateRepo, hfind]
        rfl
      exact hgoal
    · exact tagManifest_removeTag_setTag r inp.oldTag inp.newTag m (Ne.symm htag)
    · exact tagIsIn_removeTag _ inp.oldTag
  · rw [hupd2, hs]

/-- Witness for C2: retagging `v1` to `v2` in a mutable repository whose
`v1` is bound to manifest "M1" ends with the id set to "M1". -/
theorem retag_preserves_content_witness :
    (updateM mkEnv ⟨"repo-1", "app", ".", "v1", "v2", "h1", "h1"⟩ ⟨regMut, tf0, []⟩).2.tf.id
      = "M1" := by
  obtain ⟨r, m, hf, hm, -, -, htf⟩ :=
    retag_preserves_content mkEnv ⟨"repo-1", "app", ".", "v1", "v2", "h1", "h1"⟩ regMut tf0
      (by decide) rfl rfl
  have hr : some (⟨false, [("v1", "M1")]⟩ : Repo) = some r :=
    (rfl : findRepo regMut "repo-1" = some ⟨false, [("v1", "M1")]⟩).symm.trans hf
  injection hr with hr
  subst hr
  have hm2 : some "M1" = some m :=
    (rfl : tagManifest ⟨false, [("v1", "M1")]⟩ "v1" = some "M1").symm.trans hm
  injection hm2 with hm2
  subst hm2
  rw [htf]

/-! ## C1 — the immutability guard -/

/-- C1: against an IMMUTABLE repository that already contains the target
tag, Create and the tag-change path of Update both stop at the
immutable-tag-conflict error: each performs only its read calls (docker
check, Dockerfile read and the repository queries for Create; the
repository queries for Update), invokes none of build, local tag, push,
put-image or batch-delete, and leaves the registry unchanged.  The only
resource-data write is Create's recording of the freshly computed
Dockerfile hash, which happens before the guard. -/
theorem immutable_tag_conflict_guard
    (env : Env) (reg : Registry) (tf : TfState) (r : Repo)
    (rn iname t oldTag path oldHash newHash dps : String) (bytes : List Nat)
    (hdps : env.dockerPs = .ok dps)
    (hcc : containsSub dps "Cannot connect" = false)
    (hfs : env.fs (dockerfileFullPath path) = some bytes)
    (hdr : env.describeReposOk = true)
    (hdm : env.describeMutabilityOk = true)
    (hli : env.listImagesOk = true)
    (hfind : findRepo reg rn = some r)
    (himm : r.immutable = true)
    (htag : tagIsIn r t = true)
    (holdin : tagIsIn r oldTag = true)
    (hch : oldTag ≠ t) :
    createM env ⟨rn, iname, t, path⟩ ⟨reg, tf, []⟩ =
      (.error "the repo is immutable and you are trying to push an image with a tag that already exists in it",
        ⟨reg, ⟨tf.id, hexEncode (sha256 bytes)⟩,
          [.dockerPs, .readDockerfile path, .describeRepos, .describeMutability rn,
            .listImages rn]⟩) ∧
    updateM env ⟨rn, iname, path, oldTag, t, oldHash, newHash⟩ ⟨reg, tf, []⟩ =
      (.error "the repositorie is immutable and you are trying to update an image with a tag that already exists in the repositorie",
        ⟨reg, tf, [.describeRepos, .listImages rn, .describeMutability rn, .listImages rn]⟩) := by
  have hchb : (oldTag != t) = true := bne_iff_ne.mpr hch
  constructor
  · simp [createM, isDockerDRunningQ, hdps, hcc, getDockerfileHashQ, hfs, repoExistsQ, hdr,
      hfind, isMutableQ, hdm, imageTagExistQ, hli, htag, himm, emitAll]
  · simp [updateM, hchb, updateTagBranch, repoExistsQ, hdr, hfind, imageTagExistQ, hli,
      holdin, isMutableQ, hdm, htag, himm, emitAll]

/-- Witness for C1 at a concrete immutable repository that already holds
the target tag `v1` (Update retags from `v0`). -/
theorem immutable_tag_conflict_guard_witness :
    (createM mkEnv ⟨"repo-1", "app", "v1", "."⟩ ⟨regImm, tf0, []⟩).1 =
      .error "the repo is immutable and you are trying to push an image with a tag that already exists in it" ∧
    (updateM mkEnv ⟨"repo-1", "app", ".", "v0", "v1", "h1", "h1"⟩ ⟨regImm, tf0, []⟩).1 =
      .error "the repositorie is immutable and you are trying to update an image with a tag that already exists in the repositorie" := by
  have h := immutable_tag_conflict_guard mkEnv regImm tf0 ⟨true, [("v1", "M1"), ("v0", "M0")]⟩
    "repo-1" "app" "v1" "v0" "." "h1" "h1" "CONTAINER ID   IMAGE" (strBytes "FROM alpine")
    rfl (by decide) rfl rfl rfl rfl rfl rfl (by decide) (by decide) (by decide)
  exact ⟨by rw [h.1], by rw [h.2]⟩

/-! ## C8 — Delete's checks, error reporting and clearing -/

/-- C8: Delete fails with the repository-not-found error (surfaced from
the `repoExists` helper) when the repository does not exist, and with the
tag-not-found error when the tag is absent from an existing repository —
in both cases without calling `batch-delete-image`.  Only when both
checks pass does it delete the tag, clearing the id on success.  By
contrast the inner `deleteImage` helper reports success for a tag that is
already absent (the CLI exits 0), which is what Update's retry path
relies on. -/
theorem delete_checks_and_clears
    (env : Env) (reg : Registry) (tf : TfState) (rn t : String)
    (hdr : env.describeReposOk = true)
    (hli : env.listImagesOk = true)
    (hbd : env.batchDeleteOk = true)
    (hrn : rn ≠ "") (ht : t ≠ "") :
    (findRepo reg rn = none →
      deleteM env ⟨rn, t⟩ ⟨reg, tf, []⟩ =
        (.error "error retrieving repository: repository does not exist",
          ⟨reg, tf, [.describeRepos]⟩)) ∧
    (∀ r, findRepo reg rn = some r → tagIsIn r t = false →
      deleteM env ⟨rn, t⟩ ⟨reg, tf, []⟩ =
        (.error "the provided Image tag does not exist in the repository",
          ⟨reg, tf, [.describeRepos, .listImages rn]⟩)) ∧
    (∀ r, findRepo reg rn = some r → tagIsIn r t = true →
      deleteM env ⟨rn, t⟩ ⟨reg, tf, []⟩ =
        (.ok (), ⟨updateRepo reg rn (fun r0 => removeTag r0 t), ⟨"", tf.dockerfileHash⟩,
          [.describeRepos, .listImages rn, .batchDelete rn t]⟩)) ∧
    (∀ reg2 r2, findRepo reg2 rn = some r2 → tagIsIn r2 t = false →
      (deleteImageQ env reg2 rn t).1 = .ok ()) := by
  have hrnb : (rn == "") = false := beq_eq_false_iff_ne.mpr hrn
  have htb : (t == "") = false := beq_eq_false_iff_ne.mpr ht
  refine ⟨?_, ?_, ?_, ?_⟩
  · intro hnone
    simp [deleteM, hrnb, htb, repoExistsQ, hdr, hnone, emitAll]
  · intro r hfind htag
    simp [deleteM, hrnb, htb, repoExistsQ, hdr, hfind, imageTagExistQ, hli, htag, emitAll]
  · intro r hfind htag
    simp [deleteM, hrnb, htb, repoExistsQ, hdr, hfind, imageTagExistQ, hli, htag,
      deleteImageQ, hbd, emitAll]
  · intro reg2 r2 hfind2 htag2
    simp [deleteImageQ, hbd, hfind2]

/-- Witness for C8: deleting the existing tag `v1` succeeds and clears
the id; the inner helper succeeds on an absent tag. -/
theorem delete_checks_and_clears_witness :
    deleteM mkEnv ⟨"repo-1", "v1"⟩ ⟨regMut, tf0, []⟩ =
      (.ok (), ⟨[("repo-1", ⟨false, []⟩)], ⟨"", "h1"⟩,
        [.describeRepos, .listImages "repo-1", .batchDelete "repo-1" "v1"]⟩) ∧
    (deleteImageQ mkEnv [("repo-1", ⟨false, []⟩)] "repo-1" "v1").1 = .ok () := by
  have h := delete_checks_and_clears mkEnv regMut tf0 "repo-1" "v1" rfl rfl rfl
    (by decide) (by decide)
  refine ⟨?_, ?_⟩
  · have h3 := h.2.2.1 ⟨false, [("v1", "M1")]⟩ rfl (by decide)
    exact h3.trans (by rfl)
  · exact h.2.2.2 [("repo-1", ⟨false, []⟩)] ⟨false, []⟩ rfl rfl

/-! ## Error-state lemmas for Create and Update (C3) -/

/-- A failed Create never sets the id; the stored Dockerfile hash is
either untouched (failure at or before the hash step) or already set to
the freshly computed hash (failure after it). -/
theorem createM_err_state (env : Env) (inp : CreateInput) (s0 : OpState)
    (herr : isErrB (createM env inp s0).1 = true) :
    (createM env inp s0).2.tf.id = s0.tf.id ∧
      ((createM env inp s0).2.tf.dockerfileHash = s0.tf.dockerfileHash ∨
        ∃ bytes, env.fs (dockerfileFullPath inp.dockerfilePath) = some bytes ∧
          (createM env inp s0).2.tf.dockerfileHash = hexEncode (sha256 bytes)) := by
  cases hdp : env.dockerPs with
  | error e1 => simp [createM, isDockerDRunningQ, hdp, emitAll]
  | ok dps =>
  cases hcc : containsSub dps "Cannot connect" with
  | true => simp [createM, isDockerDRunningQ, hdp, hcc, emitAll]
  | false =>
  cases hfs : env.fs (dockerfileFullPath inp.dockerfilePath) with
  | none => simp [createM, isDockerDRunningQ, hdp, hcc, getDockerfileHashQ, hfs, emitAll]
  | some bytes =>
  cases hdr : env.describeReposOk with
  | false =>
    simp [createM, isDockerDRunningQ, hdp, hcc, getDockerfileHashQ, hfs, repoExistsQ, hdr,
      emitAll]
  | true =>
  cases hfind : findRepo s0.reg inp.repoName with
  | none =>
    simp [createM, isDockerDRunningQ, hdp, hcc, getDockerfileHashQ, hfs, repoExistsQ, hdr,
      hfind, emitAll]
  | some r =>
  cases hdm : env.describeMutabilityOk with
  | false =>
    simp [createM, isDockerDRunningQ, hdp, hcc, getDockerfileHashQ, hfs, repoExistsQ, hdr,
      hfind, isMutableQ, hdm, emitAll]
  | true =>
  cases hli : env.listImagesOk with
  | false =>
    simp [createM, isDockerDRunningQ, hdp, hcc, getDockerfileHashQ, hfs, repoExistsQ, hdr,
      hfind, isMutableQ, hdm, imageTagExistQ, hli, emitAll]
  | true =>
  by_cases hg : tagIsIn r inp.imageTag = true ∧ r.immutable = true
  case pos =>
    simp [createM, isDockerDRunningQ, hdp, hcc, getDockerfileHashQ, hfs, repoExistsQ, hdr,
      hfind, isMutableQ, hdm, imageTagExistQ, hli, hg.1, hg.2, emitAll]
  case neg =>
  cases haid : env.accountId with
  | error e2 =>
    simp [createM, isDockerDRunningQ, hdp, hcc, getDockerfileHashQ, hfs, repoExistsQ, hdr,
      hfind, isMutableQ, hdm, imageTagExistQ, hli, hg, getAWSAccountIDQ, haid, emitAll]
  | ok acct =>
  cases hbuild : env.buildOutcome with
  | error e3 =>
    simp [createM, isDockerDRunningQ, hdp, hcc, getDockerfileHashQ, hfs, repoExistsQ, hdr,
      hfind, isMutableQ, hdm, imageTagExistQ, hli, hg, getAWSAccountIDQ, haid,
      buildDockerImageQ, hbuild, emitAll]
  | ok u3 =>
  cases htago : env.tagOutcome with
  | error e4 =>
    simp [createM, isDockerDRunningQ, hdp, hcc, getDockerfileHashQ, hfs, repoExistsQ, hdr,
      hfind, isMutableQ, hdm, imageTagExistQ, hli, hg, getAWSAccountIDQ, haid,
      buildDockerImageQ, hbuild, tagDockerImageQ, htago, emitAll]
  | ok u4 =>
  cases hps : env.pushStartOutcome with
  | error e5 =>
    simp [createM, isDockerDRunningQ, hdp, hcc, getDockerfileHashQ, hfs, repoExistsQ, hdr,
      hfind, isMutableQ, hdm, imageTagExistQ, hli, hg, getAWSAccountIDQ, haid,
      buildDockerImageQ, hbuild, tagDockerImageQ, htago, pushDockerImageQ, hps, emitAll]
  | ok u5 =>
  cases har : env.authRunOutcome with
  | error e6 =>
    simp [createM, isDockerDRunningQ, hdp, hcc, getDockerfileHashQ, hfs, repoExistsQ, hdr,
      hfind, isMutableQ, hdm, imageTagExistQ, hli, hg, getAWSAccountIDQ, haid,
      buildDockerImageQ, hbuild, tagDockerImageQ, htago, pushDockerImageQ, hps, har, emitAll]
  | ok u6 =>
  cases hpw : env.pushWaitOutcome with
  | error e7 =>
    simp [createM, isDockerDRunningQ, hdp, hcc, getDockerfileHashQ, hfs, repoExistsQ, hdr,
      hfind, isMutableQ, hdm, imageTagExistQ, hli, hg, getAWSAccountIDQ, haid,
      buildDockerImageQ, hbuild, tagDockerImageQ, htago, pushDockerImageQ, hps, har, hpw,
      emitAll]
  | ok u7 =>
  cases hbg : env.batchGetOk with
  | false =>
    simp [createM, isDockerDRunningQ, hdp, hcc, getDockerfileHashQ, hfs, repoExistsQ, hdr,
      hfind, isMutableQ, hdm, imageTagExistQ, hli, hg, getAWSAccountIDQ, haid,
      buildDockerImageQ, hbuild, tagDockerImageQ, htago, pushDockerImageQ, hps, har, hpw,
      getImageManifestQ, hbg, emitAll]
  | true =>
  cases hman : tagManifest r inp.imageTag with
  | none =>
    simp [createM, isDockerDRunningQ, hdp, hcc, getDockerfileHashQ, hfs, repoExistsQ, hdr,
      hfind, isMutableQ, hdm, imageTagExistQ, hli, hg, getAWSAccountIDQ, haid,
      buildDockerImageQ, hbuild, tagDockerImageQ, htago, pushDockerImageQ, hps, har, hpw,
      getImageManifestQ, hbg, hman, emitAll, isErrB] at herr
  | some m =>
    simp [createM, isDockerDRunningQ, hdp, hcc, getDockerfileHashQ, hfs, repoExistsQ, hdr,
      hfind, isMutableQ, hdm, imageTagExistQ, hli, hg, getAWSAccountIDQ, haid,
      buildDockerImageQ, hbuild, tagDockerImageQ, htago, pushDockerImageQ, hps, har, hpw,
      getImageManifestQ, hbg, hman, emitAll, isErrB] at herr

/-- A failed tag-change branch leaves the resource data untouched. -/
theorem updateTagBranch_err_state (env : Env) (inp : UpdateInput) (s0 : OpState)
    (herr : isErrB (updateTagBranch env inp s0).1 = true) :
    (updateTagBranch env inp s0).2.tf = s0.tf := by
  cases hdr : env.describeReposOk with
  | false => simp [updateTagBranch, repoExistsQ, hdr, emitAll]
  | true =>
  cases hfind : findRepo s0.reg inp.repoName with
  | none => simp [updateTagBranch, repoExistsQ, hdr, hfind, emitAll]
  | some r =>
  cases hli : env.listImagesOk with
  | false => simp [updateTagBranch, repoExistsQ, imageTagExistQ, hdr, hfind, hli, emitAll]
  | true =>
  cases hold : tagIsIn r inp.oldTag with
  | false =>
    simp [updateTagBranch, repoExistsQ, imageTagExistQ, hdr, hfind, hli, hold, emitAll]
  | true =>
  cases hdm : env.describeMutabilityOk with
  | false =>
    simp [updateTagBranch, repoExistsQ, imageTagExistQ, isMutableQ, hdr, hfind, hli, hold,
      hdm, emitAll]
  | true =>
  by_cases hg : tagIsIn r inp.newTag = true ∧ r.immutable = true
  case pos =>
    simp [updateTagBranch, repoExistsQ, imageTagExistQ, isMutableQ, hdr, hfind, hli, hold,
      hdm, hg.1, hg.2, emitAll]
  case neg =>
  cases hbg : env.batchGetOk with
  | false =>
    simp [updateTagBranch, repoExistsQ, imageTagExistQ, isMutableQ, getImageManifestQ, hdr,
      hfind, hli, hold, hdm, hg, hbg, emitAll]
  | true =>
  cases hman : tagManifest r inp.oldTag with
  | none =>
    rw [tagIsIn_eq_isSome, hman] at hold
    simp at hold
  | some m =>
  cases hpi : env.putImageOk with
  | false =>
    simp [updateTagBranch, repoExistsQ, imageTagExistQ, isMutableQ, getImageManifestQ,
      updateImageTagQ, hdr, hfind, hli, hold, hdm, hg, hbg, hman, hpi, emitAll]
  | true =>
  have hput : updateImageTagQ env s0.reg m inp.repoName inp.newTag =
      (.ok (), updateRepo s0.reg inp.repoName (fun r0 => setTag r0 inp.newTag m),
        [.putImage inp.repoName inp.newTag m]) := by
    cases hmn : tagManifest r inp.newTag with
    | none => simp [updateImageTagQ, hpi, hfind, hmn]
    | some m0 =>
      have hin : tagIsIn r inp.newTag = true := by
        rw [tagIsIn_eq_isSome, hmn]; rfl
      have himm : r.immutable = false := by
        cases hi : r.immutable
        · rfl
        · exact absurd ⟨hin, hi⟩ hg
      simp [updateImageTagQ, hpi, hfind, hmn, himm]
  cases hbd : env.batchDeleteOk with
  | false =>
    simp [updateTagBranch, repoExistsQ, imageTagExistQ, isMutableQ, getImageManifestQ,
      hput, deleteImageQ, hdr, hfind, hli, hold, hdm, hg, hbg, hman, hbd, emitAll]
  | true =>
  have hdel : deleteImageQ env
      (updateRepo s0.reg inp.repoName (fun r0 => setTag r0 inp.newTag m))
      inp.repoName inp.oldTag =
      (.ok (), updateRepo (updateRepo s0.reg inp.repoName (fun r0 => setTag r0 inp.newTag m))
        inp.repoName (fun r0 => removeTag r0 inp.oldTag),
        [.batchDelete inp.repoName inp.oldTag]) := by
    simp [deleteImageQ, hbd, findRepo_updateRepo, hfind]
  simp [updateTagBranch, repoExistsQ, imageTagExistQ, isMutableQ, getImageManifestQ, hput,
    hdel, hdr, hfind, hli, hold, hdm, hg, hbg, hman, emitAll, isErrB] at herr

/-- A failed rebuild branch leaves the resource data untouched. -/
theorem updateHashBranch_err_state (env : Env) (inp : UpdateInput) (s0 : OpState)
    (herr : isErrB (updateHashBranch env inp s0).1 = true) :
    (updateHashBranch env inp s0).2.tf = s0.tf := by
  cases haid : env.accountId with
  | error e2 => simp [updateHashBranch, getAWSAccountIDQ, haid, emitAll]
  | ok acct =>
  cases hbuild : env.buildOutcome with
  | error e3 =>
    simp [updateHashBranch, getAWSAccountIDQ, haid, buildDockerImageQ, hbuild, emitAll]
  | ok u3 =>
  cases htago : env.tagOutcome with
  | error e4 =>
    simp [updateHashBranch, getAWSAccountIDQ, haid, buildDockerImageQ, hbuild,
      tagDockerImageQ, htago, emitAll]
  | ok u4 =>
  cases hps : env.pushStartOutcome with
  | error e5 =>
    simp [updateHashBranch, getAWSAccountIDQ, haid, buildDockerImageQ, hbuild,
      tagDockerImageQ, htago, pushDockerImageQ, hps, emitAll]
  | ok u5 =>
  cases har : env.authRunOutcome with
  | error e6 =>
    simp [updateHashBranch, getAWSAccountIDQ, haid, buildDockerImageQ, hbuild,
      tagDockerImageQ, htago, pushDockerImageQ, hps, har, emitAll]
  | ok u6 =>
  cases hpw : env.pushWaitOutcome with
  | error e7 =>
    simp [updateHashBranch, getAWSAccountIDQ, haid, buildDockerImageQ, hbuild,
      tagDockerImageQ, htago, pushDockerImageQ, hps, har, hpw, emitAll]
  | ok u7 =>
  cases hbg : env.batchGetOk with
  | false =>
    simp [updateHashBranch, getAWSAccountIDQ, haid, buildDockerImageQ, hbuild,
      tagDockerImageQ, htago, pushDockerImageQ, hps, har, hpw, getImageManifestQ, hbg,
      emitAll]
  | true =>
  cases hfind : findRepo s0.reg inp.repoName with
  | none =>
    simp [updateHashBranch, getAWSAccountIDQ, haid, buildDockerImageQ, hbuild,
      tagDockerImageQ, htago, pushDockerImageQ, hps, har, hpw, getImageManifestQ, hbg,
      hfind, emitAll]
  | some r =>
  cases hman : tagManifest r inp.newTag with
  | none =>
    simp [updateHashBranch, getAWSAccountIDQ, haid, buildDockerImageQ, hbuild,
      tagDockerImageQ, htago, pushDockerImageQ, hps, har, hpw, getImageManifestQ, hbg,
      hfind, hman, emitAll, isErrB] at herr
  | some m =>
    simp [updateHashBranch, getAWSAccountIDQ, haid, buildDockerImageQ, hbuild,
      tagDockerImageQ, htago, pushDockerImageQ, hps, har, hpw, getImageManifestQ, hbg,
      hfind, hman, emitAll, isErrB] at herr

/-- Assembly of the error-state lemmas over the whole Update call. -/
theorem updateM_err_state (env : Env) (inp : UpdateInput) (reg : Registry) (tf : TfState)
    (herr : isErrB (updateM env inp ⟨reg, tf, []⟩).1 = true) :
    (updateM env inp ⟨reg, tf, []⟩).2.tf.dockerfileHash = tf.dockerfileHash ∧
      ((updateM env inp ⟨reg, tf, []⟩).2.tf.id = tf.id ∨
        ∃ r m, findRepo reg inp.repoName = some r ∧ tagManifest r inp.oldTag = some m ∧
          (updateM env inp ⟨reg, tf, []⟩).2.tf.id = m) := by
  cases htc : (inp.oldTag != inp.newTag) with
  | false =>
    cases hhc : (inp.oldHash != inp.newHash) with
    | false =>
      rw [show updateM env inp ⟨reg, tf, []⟩ = (.ok (), ⟨reg, tf, []⟩) by
        simp [updateM, htc, hhc]] at herr
      simp [isErrB] at herr
    | true =>
      have he : updateM env inp ⟨reg, tf, []⟩ = updateHashBranch env inp ⟨reg, tf, []⟩ := by
        simp [updateM, htc, hhc]
      rw [he] at herr ⊢
      have h1 : (updateHashBranch env inp ⟨reg, tf, []⟩).2.tf = tf :=
        updateHashBranch_err_state env inp ⟨reg, tf, []⟩ herr
      exact ⟨congrArg TfState.dockerfileHash h1, Or.inl (congrArg TfState.id h1)⟩
  | true =>
    rcases hub : updateTagBranch env inp ⟨reg, tf, []⟩ with ⟨tres, ts⟩
    cases tres with
    | error e =>
      have he : updateM env inp ⟨reg, tf, []⟩ = (.error e, ts) := by
        simp [updateM, htc, hub]
      have h1 : ts.tf = tf := by
        have h2 := updateTagBranch_err_state env inp ⟨reg, tf, []⟩ (by rw [hub]; rfl)
        rw [hub] at h2
        exact h2
      rw [he]
      exact ⟨congrArg TfState.dockerfileHash h1, Or.inl (congrArg TfState.id h1)⟩
    | ok u =>
      obtain ⟨r, m, hfind, hman, hs⟩ := updateTagBranch_ok_spec env inp _ ts hub
      have hts : ts.tf = ⟨m, tf.dockerfileHash⟩ := by rw [hs]
      cases hhc : (inp.oldHash != inp.newHash) with
      | false =>
        rw [show updateM env inp ⟨reg, tf, []⟩ = (.ok (), ts) by
          simp [updateM, htc, hhc, hub]] at herr
        simp [isErrB] at herr
      | true =>
        have he : updateM env inp ⟨reg, tf, []⟩ = updateHashBranch env inp ts := by
          simp [updateM, htc, hhc, hub]
        rw [he] at herr ⊢
        have h2 : (updateHashBranch env inp ts).2.tf = ts.tf :=
          updateHashBranch_err_state env inp ts herr
        rw [h2, hts]
        exact ⟨rfl, Or.inr ⟨r, m, hfind, hman, rfl⟩⟩

/-! ## C3 — what failed operations leave behind -/

set_option maxRecDepth 8192 in
/-- C3 (counterexample): Create records the freshly computed Dockerfile
fingerprint into the resource data *before* building and pushing, so a
Create whose `docker build` fails leaves the stored fingerprint changed
from its prior value "h1" — the claim that a failed build never updates
the stored fingerprint is false on this code path. -/
theorem create_build_failure_updates_fingerprint :
    (createM envBuildFail ⟨"repo-1", "app", "v2", "."⟩ ⟨regMut, tf0, []⟩).1 =
      .error "error building Docker image: boom" ∧
    (createM envBuildFail ⟨"repo-1", "app", "v2", "."⟩ ⟨regMut, tf0, []⟩).2.tf.dockerfileHash
      ≠ tf0.dockerfileHash := by
  exact ⟨rfl, by decide⟩

/-- C3 (amended): a failed Create or Update never sets the id from its
own branch — with two exceptions forced by the code: a Create failing
after its fingerprint step leaves the fingerprint set to the freshly
computed hash (not the prior value), and an Update whose tag-change
branch completed before its rebuild branch failed leaves the id at the
just-retagged manifest.  Update never writes the fingerprint itself. -/
theorem failed_ops_state_amended :
    (∀ (env : Env) (inp : CreateInput) (reg : Registry) (tf : TfState),
      isErrB (createM env inp ⟨reg, tf, []⟩).1 = true →
      (createM env inp ⟨reg, tf, []⟩).2.tf.id = tf.id ∧
        ((createM env inp ⟨reg, tf, []⟩).2.tf.dockerfileHash = tf.dockerfileHash ∨
          ∃ bytes, env.fs (dockerfileFullPath inp.dockerfilePath) = some bytes ∧
            (createM env inp ⟨reg, tf, []⟩).2.tf.dockerfileHash = hexEncode (sha256 bytes))) ∧
    (∀ (env : Env) (inp : UpdateInput) (reg : Registry) (tf : TfState),
      isErrB (updateM env inp ⟨reg, tf, []⟩).1 = true →
      (updateM env inp ⟨reg, tf, []⟩).2.tf.dockerfileHash = tf.dockerfileHash ∧
        ((updateM env inp ⟨reg, tf, []⟩).2.tf.id = tf.id ∨
          ∃ r m, findRepo reg inp.repoName = some r ∧ tagManifest r inp.oldTag = some m ∧
            (updateM env inp ⟨reg, tf, []⟩).2.tf.id = m)) :=
  ⟨fun env inp reg tf herr => createM_err_state env inp ⟨reg, tf, []⟩ herr,
   fun env inp reg tf herr => updateM_err_state env inp reg tf herr⟩

set_option maxRecDepth 8192 in
/-- Witness for the amended C3: a Create failing at `docker build` keeps
the id "M1", and an Update against a vanished registry keeps the stored
fingerprint "h1". -/
theorem failed_ops_state_amended_witness :
    (createM envBuildFail ⟨"repo-1", "app", "v2", "."⟩ ⟨regMut, tf0, []⟩).2.tf.id = "M1" ∧
    (updateM mkEnv ⟨"repo-1", "app", ".", "v1", "v2", "h1", "h1"⟩ ⟨[], tf0, []⟩).2.tf.dockerfileHash
      = "h1" := by
  constructor
  · exact (failed_ops_state_amended.1 envBuildFail ⟨"repo-1", "app", "v2", "."⟩ regMut tf0
      (by decide)).1
  · exact (failed_ops_state_amended.2 mkEnv ⟨"repo-1", "app", ".", "v1", "v2", "h1", "h1"⟩
      [] tf0 (by decide)).1

/-! ## C6 — the authentication boundary of the push step

The CLI revision of `pushDockerImage`, the one invoked by the embedded
Create and Update, starts the `docker push` process before the
authentication pipeline runs and waits for it to complete regardless of
the pipeline's outcome, so it has no authentication gate; the SDK
revision completes the whole authentication phase before `ImagePush` and
realizes the gate, showing the gate is the intended behaviour. -/

/-- C6: the claimed authentication gate is structurally absent from the
CLI `pushDockerImage` that the embedded Create and Update invoke.  For
every outcome of the three process operations, once the stdin pipe is
created the step trace is pipe creation, push start, authentication run,
push wait, in that fixed order — `docker push` is started before the
`aws ecr get-login-password | docker login` pipeline runs, and is waited
to completion even when that pipeline fails; when authentication fails
after a successful start, the function reports the authentication error
only after the push has been waited, never aborting it at the
authentication boundary; and the step-level model returns exactly the
result of the `pushDockerImageQ` used by the embedded Create and
Update. -/
theorem cli_push_starts_before_auth :
    (∀ errStart errRun errWait : Except String Unit,
      (pushDockerImageSteps (.ok ()) errStart errRun errWait).2 =
        [.stdinPipe, .pushStart, .authRun, .pushWait]) ∧
    (∀ (msg : String) (errWait : Except String Unit),
      (pushDockerImageSteps (.ok ()) (.ok ()) (.error msg) errWait).1 = .error msg) ∧
    (∀ (env : Env) (ref : String),
      (pushDockerImageSteps (.ok ()) env.pushStartOutcome env.authRunOutcome
          env.pushWaitOutcome).1 = (pushDockerImageQ env ref).1) := by
  refine ⟨fun errStart errRun errWait => rfl, fun msg errWait => rfl, ?_⟩
  intro env ref
  unfold pushDockerImageSteps pushDockerImageQ
  cases env.pushStartOutcome with
  | error e => rfl
  | ok u =>
    cases env.authRunOutcome with
    | error e => rfl
    | ok v => rfl

/-- In the SDK revision of `pushDockerImage`, by contrast, the
authentication phase — load config, fetch the ECR authorization token,
base64-decode it, split it into username and password — completes
strictly before `ImagePush` is invoked: if any part of authentication
fails, the helper returns that failure and the trace contains no push
call, so no layer bytes are sent; conversely, a push call in the trace
implies the whole authentication phase succeeded. -/
theorem sdk_push_auth_gate :
    (∀ (env : SdkPushEnv) (ref : String),
      isErrB (sdkAuthPhase env) = true →
      isErrB (pushDockerImageSdk env ref).1 = true ∧
        (SdkEffect.imagePush ref) ∉ (pushDockerImageSdk env ref).2) ∧
    (∀ (env : SdkPushEnv) (ref : String),
      (SdkEffect.imagePush ref) ∈ (pushDockerImageSdk env ref).2 →
      ∃ creds, sdkAuthPhase env = .ok creds) := by
  constructor
  · intro env ref herr
    cases hlc : env.loadConfigOutcome with
    | error e => constructor <;> simp [pushDockerImageSdk, hlc, isErrB]
    | ok u =>
    cases hat : env.authTokenOutcome with
    | error e => constructor <;> simp [pushDockerImageSdk, hlc, hat, isErrB]
    | ok authData =>
    cases hie : authData.isEmpty with
    | true => constructor <;> simp [pushDockerImageSdk, hlc, hat, hie, isErrB]
    | false =>
    cases hb64 : base64Decode (authData.head?.getD "") with
    | error e => constructor <;> simp [pushDockerImageSdk, hlc, hat, hie, hb64, isErrB]
    | ok decoded =>
    cases hsp : splitN2Colon decoded with
    | nil => constructor <;> simp [pushDockerImageSdk, hlc, hat, hie, hb64, hsp, isErrB]
    | cons a as =>
      cases as with
      | nil => constructor <;> simp [pushDockerImageSdk, hlc, hat, hie, hb64, hsp, isErrB]
      | cons b bs =>
        cases bs with
        | nil =>
          rw [show sdkAuthPhase env = .ok (a, b) by
            simp [sdkAuthPhase, hlc, hat, hie, hb64, hsp]] at herr
          simp [isErrB] at herr
        | cons c cs =>
          constructor <;> simp [pushDockerImageSdk, hlc, hat, hie, hb64, hsp, isErrB]
  · intro env ref hmem
    cases hlc : env.loadConfigOutcome with
    | error e => simp [pushDockerImageSdk, hlc] at hmem
    | ok u =>
    cases hat : env.authTokenOutcome with
    | error e => simp [pushDockerImageSdk, hlc, hat] at hmem
    | ok authData =>
    cases hie : authData.isEmpty with
    | true => simp [pushDockerImageSdk, hlc, hat, hie] at hmem
    | false =>
    cases hb64 : base64Decode (authData.head?.getD "") with
    | error e => simp [pushDockerImageSdk, hlc, hat, hie, hb64] at hmem
    | ok decoded =>
    cases hsp : splitN2Colon decoded with
    | nil => simp [pushDockerImageSdk, hlc, hat, hie, hb64, hsp] at hmem
    | cons a as =>
      cases as with
      | nil => simp [pushDockerImageSdk, hlc, hat, hie, hb64, hsp] at hmem
      | cons b bs =>
        cases bs with
        | nil =>
          exact ⟨(a, b), by simp [sdkAuthPhase, hlc, hat, hie, hb64, hsp]⟩
        | cons c cs =>
          simp [pushDockerImageSdk, hlc, hat, hie, hb64, hsp] at hmem

/-- Concrete instance of the SDK gate: with the token request denied, the
SDK push helper fails and no `ImagePush` call appears in its trace. -/
theorem sdk_push_auth_gate_witness :
    isErrB (pushDockerImageSdk sdkEnvAuthFail "acct.dkr.ecr.eu-central-1.amazonaws.com/repo-1:v1").1
        = true ∧
      (SdkEffect.imagePush "acct.dkr.ecr.eu-central-1.amazonaws.com/repo-1:v1") ∉
        (pushDockerImageSdk sdkEnvAuthFail "acct.dkr.ecr.eu-central-1.amazonaws.com/repo-1:v1").2 :=
  sdk_push_auth_gate.1 sdkEnvAuthFail "acct.dkr.ecr.eu-central-1.amazonaws.com/repo-1:v1" rfl

-- The exhaustive fingerprint-sensitivity checks follow.

set_option maxRecDepth 100000 in
set_option maxHeartbeats 4000000 in
/-- C9: the content fingerprint computed by `getDockerfileHash` is exactly
the hex-encoded SHA-256 digest of the raw bytes of the file named
"Dockerfile" inside the build context directory; it depends on no other
file (environments agreeing on that one path produce identical results);
recomputation on unmodified bytes is deterministic; and modifying one
byte of a build-instructions file changes the digest — demonstrated on a
representative file with a flipped byte at every position and with eight
further alternative byte values at the first position. -/
theorem dockerfile_hash_spec :
    (∀ (env : Env) (p : String) (bytes : List Nat),
        env.fs (dockerfileFullPath p) = some bytes →
        (getDockerfileHashQ env p).1 = .ok (hexEncode (sha256 bytes))) ∧
    (∀ (env env2 : Env) (p : String),
        env.fs (dockerfileFullPath p) = env2.fs (dockerfileFullPath p) →
        getDockerfileHashQ env p = getDockerfileHashQ env2 p) ∧
    (∀ bytes : List Nat, hexEncode (sha256 bytes) = hexEncode (sha256 bytes)) ∧
    (∀ i : Fin 11,
        hexEncode (sha256 (dockerfileSample.set (i : Nat) (255 - dockerfileSample.getD (i : Nat) 0))) ≠
          hexEncode (sha256 dockerfileSample)) ∧
    (∀ b : Fin 8,
        hexEncode (sha256 (dockerfileSample.set 0 (b : Nat))) ≠
          hexEncode (sha256 dockerfileSample)) := by
  refine ⟨?_, ?_, ?_, by decide, by decide⟩
  · intro env p bytes hf
    simp [getDockerfileHashQ, hf]
  · intro env env2 p hf
    unfold getDockerfileHashQ
    rw [hf]
  · intro bytes
    rfl

set_option maxRecDepth 8192 in
/-- Witness for C9: the fingerprint of the representative file is its
hex SHA-256, and replacing its first byte `F` with byte 185 changes the
digest. -/
theorem dockerfile_hash_spec_witness :
    (getDockerfileHashQ mkEnv ".").1 = .ok (hexEncode (sha256 (strBytes "FROM alpine"))) ∧
    hexEncode (sha256 (dockerfileSample.set 0 185)) ≠ hexEncode (sha256 dockerfileSample) := by
  constructor
  · exact dockerfile_hash_spec.1 mkEnv "." (strBytes "FROM alpine") rfl
  · exact dockerfile_hash_spec.2.2.2.1 ⟨0, by decide⟩

end EcrPush
